import Mathlib

/-!
# In-memory saga store (`gbus/saga/inMemorySagaStore.go`)

A shallow embedding of `InMemorySagaStore` and its three methods
`GetSagaByID`, `SaveNewSaga`, `UpdateSaga`, and of `NewInMemoryStore`.

Modelling decisions, all read off the Go source:

* `map[*SagaDef][]*SagaInstance` is an association list with unique keys
  (`AList`), wrapped in `Option`: `none` is the nil map of a zero-valued store.
* a `*SagaInstance` is `Option SagaInstance`: `none` is the nil pointer, and
  reading `instance.ID` through it is a run-time panic.
* a slice is a `List`; the nil slice and the empty slice are both `[]` (the code
  only ranges over slices and appends to them, which does not tell them apart).
* Go leaves the iteration order of `range` over a map unspecified, so the
  lookup takes the order in which the keys are visited as an argument; the
  orders that can occur are the permutations of the key set (`IterationOrder`).
* the methods do not write through any pointer, so a method that changes the
  store returns the new store next to its Go result.
-/

namespace Saga

set_option linter.unusedVariables false

/-! ## Data model -/

/-- The value of a `*SagaDef`: the address it points to. Only its identity is
used, as the key of the map. -/
abbrev DefPtr := Nat

/-- The value of a `*sql.Tx`. No method of the store reads it. -/
abbrev SqlTx := Option Nat

/-- Modelled from the spec: the declaration of `SagaInstance` is not among the
sources. The store reads the field `ID` (a Go string, the correlation
identifier of the spec); `addr` is the address of the struct, by which two
structs with equal `ID` differ. -/
structure SagaInstance where
  ID : String
  addr : Nat
  deriving DecidableEq, Repr

/-- The value of a `*SagaInstance`; `none` is the nil pointer. -/
abbrev InstPtr := Option SagaInstance

/-- The value of a Go `error`; `none` is the nil error, `some msg` an error
made by `errors.New(msg)`. -/
abbrev GoError := Option String

/-- Outcome of running a method: it returns a value, or the goroutine panics
(nil pointer dereference, assignment to an entry of a nil map). -/
inductive Exec (α : Type) where
  | ret (a : α)
  | panic
  deriving DecidableEq, Repr

/-- A non-nil Go map of type `map[*SagaDef][]*SagaInstance`. -/
abbrev GoMap := AList (fun _ : DefPtr => List InstPtr)

/-- The struct `InMemorySagaStore`; `instances = none` is the nil map. -/
structure InMemorySagaStore where
  instances : Option GoMap
  deriving DecidableEq

namespace InMemorySagaStore

/-- The keys of `store.instances` (none for the nil map). -/
def keys (store : InMemorySagaStore) : List DefPtr :=
  match store.instances with
  | none => []
  | some m => m.keys

/-- The Go index expression `store.instances[def]`: the slice stored under
`def`, the nil slice when the key is absent or the map is nil. -/
def index (store : InMemorySagaStore) (sagaDef : DefPtr) : List InstPtr :=
  match store.instances with
  | none => []
  | some m => (m.lookup sagaDef).getD []

end InMemorySagaStore

/-- The orders in which `range store.instances` may visit the keys: every key
exactly once, in any order. -/
def IterationOrder (store : InMemorySagaStore) (order : List DefPtr) : Prop :=
  order.Perm store.keys

instance (store : InMemorySagaStore) (order : List DefPtr) :
    Decidable (IterationOrder store order) := by
  unfold IterationOrder; infer_instance

/-! ## The methods -/

/-- The error value of `GetSagaByID`. -/
def notFound : GoError := some "no saga found for provided id"

/-- The inner loop of `GetSagaByID`, `for _, instance := range instances`:
`ret (some i)` when the loop returns instance `i`, `ret none` when it runs to
its end, `panic` when `instance.ID` is read through a nil pointer. -/
def rangeInstances (sagaID : String) : List InstPtr → Exec (Option SagaInstance)
  | [] => .ret none
  | none :: _ => .panic
  | some inst :: rest =>
    if inst.ID = sagaID then .ret (some inst) else rangeInstances sagaID rest

/-- The outer loop of `GetSagaByID`, `for _, instances := range store.instances`,
visiting the keys in the given order, with the final `return nil, errors.New(..)`. -/
def rangeStore (store : InMemorySagaStore) (sagaID : String) :
    List DefPtr → Exec (InstPtr × GoError)
  | [] => .ret (none, notFound)
  | sagaDef :: rest =>
    match rangeInstances sagaID (store.index sagaDef) with
    | .panic => .panic
    | .ret (some inst) => .ret (some inst, none)
    | .ret none => rangeStore store sagaID rest

/-- The method `GetSagaByID(tx, sagaID)`, for the iteration order `order` of the
map. -/
def GetSagaByID (store : InMemorySagaStore) (order : List DefPtr) (tx : SqlTx)
    (sagaID : String) : Exec (InstPtr × GoError) :=
  rangeStore store sagaID order

/-- The method `SaveNewSaga(tx, def, newInstance)`: the store after the call and
the returned error. The source replaces a nil `instances` by `make(.., 0)`
before the append; both are `[]` here. The write
`store.instances[def] = instances` panics on a nil map. -/
def SaveNewSaga (store : InMemorySagaStore) (tx : SqlTx) (sagaDef : DefPtr)
    (newInstance : InstPtr) : Exec (InMemorySagaStore × GoError) :=
  let instances := store.index sagaDef
  let instances := instances ++ [newInstance]
  match store.instances with
  | none => .panic
  | some m => .ret (⟨some (m.insert sagaDef instances)⟩, none)

/-- The method `UpdateSaga(tx, instance)`: `return nil`, the store untouched. -/
def UpdateSaga (store : InMemorySagaStore) (tx : SqlTx) (inst : InstPtr) :
    Exec (InMemorySagaStore × GoError) :=
  .ret (store, none)

/-- The constructor `NewInMemoryStore()`: a store with an empty, non-nil map. -/
def NewInMemoryStore : InMemorySagaStore :=
  ⟨some ∅⟩

/-! ## Sequences of calls -/

/-- A call of one of the two methods that take the store as mutable state. -/
inductive Call where
  | saveNew (tx : SqlTx) (sagaDef : DefPtr) (newInstance : InstPtr)
  | update (tx : SqlTx) (inst : InstPtr)
  deriving DecidableEq, Repr

/-- One call, on the store. -/
def Call.run (store : InMemorySagaStore) : Call → Exec (InMemorySagaStore × GoError)
  | .saveNew tx sagaDef newInstance => SaveNewSaga store tx sagaDef newInstance
  | .update tx inst => UpdateSaga store tx inst

/-- The calls of a list one after the other; a panic ends the run. -/
def runCalls (store : InMemorySagaStore) : List Call → Exec InMemorySagaStore
  | [] => .ret store
  | c :: rest =>
    match c.run store with
    | .panic => .panic
    | .ret (store', _) => runCalls store' rest

/-- The IDs of the non-nil instances passed to `SaveNewSaga` in a sequence of
calls, in call order. -/
def savedIDs : List Call → List String
  | [] => []
  | .saveNew _ _ (some inst) :: rest => inst.ID :: savedIDs rest
  | .saveNew _ _ none :: rest => savedIDs rest
  | .update _ _ :: rest => savedIDs rest

/-- Whether a call is a `SaveNewSaga` with a nil instance pointer. -/
def Call.savesNil : Call → Bool
  | .saveNew _ _ none => true
  | _ => false

/-- The number of `SaveNewSaga` calls in a sequence of calls. -/
def numSaves : List Call → Nat
  | [] => 0
  | .saveNew _ _ _ :: rest => numSaves rest + 1
  | .update _ _ :: rest => numSaves rest

/-! ## Observations on a store -/

/-- Whether a stored pointer is a (non-nil) instance with the given ID. -/
def hasID (sagaID : String) : InstPtr → Bool
  | none => false
  | some inst => decide (inst.ID = sagaID)

/-- The number of stored instances with the given ID, all lists of the map taken
together. -/
def countID (store : InMemorySagaStore) (sagaID : String) : Nat :=
  (store.keys.map (fun d => (store.index d).countP (hasID sagaID))).sum

/-- The total number of stored instance pointers: the lengths of all lists of
the map added up. -/
def storedCount (store : InMemorySagaStore) : Nat :=
  (store.keys.map (fun d => (store.index d).length)).sum

/-- Some list of the map holds an instance with the given ID. -/
def HoldsID (store : InMemorySagaStore) (sagaID : String) : Prop :=
  ∃ sagaDef ∈ store.keys, ∃ p ∈ store.index sagaDef, hasID sagaID p = true

/-- No list of the store holds a nil pointer. -/
def NoNilInstance (store : InMemorySagaStore) : Prop :=
  ∀ sagaDef ∈ store.keys, none ∉ store.index sagaDef

instance (store : InMemorySagaStore) (sagaID : String) : Decidable (HoldsID store sagaID) := by
  unfold HoldsID; infer_instance

instance (store : InMemorySagaStore) : Decidable (NoNilInstance store) := by
  unfold NoNilInstance; infer_instance

/-- The first instance with the given ID in a slice, nil pointers skipped: what
the inner loop of `GetSagaByID` returns when it meets no nil pointer. -/
def firstWithID (sagaID : String) : List InstPtr → Option SagaInstance
  | [] => none
  | none :: rest => firstWithID sagaID rest
  | some inst :: rest => if inst.ID = sagaID then some inst else firstWithID sagaID rest

/-- The Go result of a lookup that found the given instance, or nothing. -/
def lookupResult : Option SagaInstance → Exec (InstPtr × GoError)
  | some inst => .ret (some inst, none)
  | none => .ret (none, notFound)

/-! ## Example values

Definitions are the addresses 7 and 8; `a1` and `b1` are two instances with the
same ID "1", `c2` has the ID "2". Every store below except `zeroStore` is the
result of a run of `SaveNewSaga` calls on `NewInMemoryStore()`. -/

def a1 : SagaInstance := ⟨"1", 100⟩
def b1 : SagaInstance := ⟨"1", 200⟩
def c2 : SagaInstance := ⟨"2", 300⟩

/-- The zero value `InMemorySagaStore{}`, whose map is nil. -/
def zeroStore : InMemorySagaStore := ⟨none⟩

/-- The map with the one entry `7 ↦ [&a1]`. -/
def mapA : GoMap := (∅ : GoMap).insert 7 [some a1]

/-- After `SaveNewSaga(nil, 7, &a1)`. -/
def storeA : InMemorySagaStore := ⟨some mapA⟩

/-- After `SaveNewSaga(nil, 7, &a1)` and `SaveNewSaga(nil, 7, &b1)`: two
stored instances with ID "1". -/
def storeAB : InMemorySagaStore := ⟨some ((∅ : GoMap).insert 7 [some a1, some b1])⟩

/-- After `SaveNewSaga(nil, 7, &a1)` and `SaveNewSaga(nil, 8, &c2)`: two
keys, one stored instance with ID "1". -/
def storeAC : InMemorySagaStore := ⟨some (mapA.insert 8 [some c2])⟩

/-- After `SaveNewSaga(nil, 7, &a1)` and `SaveNewSaga(nil, 8, &b1)`: two
keys, each with its own instance with ID "1". -/
def storeTwoDefs : InMemorySagaStore := ⟨some (mapA.insert 8 [some b1])⟩

/-- After `SaveNewSaga(nil, 7, &a1)` and `SaveNewSaga(nil, 8, &a1)`: the same
pointer saved under two keys. -/
def storeShared : InMemorySagaStore := ⟨some (mapA.insert 8 [some a1])⟩

/-- After `SaveNewSaga(nil, 7, nil)`. -/
def storeNil : InMemorySagaStore := ⟨some ((∅ : GoMap).insert 7 [none])⟩

/-- After `SaveNewSaga(nil, 7, nil)` and `SaveNewSaga(nil, 7, &a1)`. -/
def storeNilA : InMemorySagaStore := ⟨some ((∅ : GoMap).insert 7 [none, some a1])⟩

/-- After `SaveNewSaga(nil, 7, nil)`, `SaveNewSaga(nil, 7, &a1)` and
`SaveNewSaga(nil, 7, &b1)`. -/
def storeNilAB : InMemorySagaStore :=
  ⟨some ((∅ : GoMap).insert 7 [none, some a1, some b1])⟩

/-- After `SaveNewSaga(nil, 7, &a1)` and `SaveNewSaga(nil, 8, nil)`. -/
def storeANil : InMemorySagaStore := ⟨some (mapA.insert 8 [none])⟩

/-- After `SaveNewSaga(nil, 7, nil)` and `SaveNewSaga(nil, 8, &a1)`. -/
def storeNilOther : InMemorySagaStore :=
  ⟨some (((∅ : GoMap).insert 7 [none] : GoMap).insert 8 [some a1])⟩

/-! ## Basic facts -/

theorem rangeInstances_eq_firstWithID (sagaID : String) (l : List InstPtr) (h : none ∉ l) :
    rangeInstances sagaID l = .ret (firstWithID sagaID l) := by
  induction l with
  | nil => rfl
  | cons x rest ih =>
    cases x with
    | none => simp at h
    | some inst =>
      have hr : none ∉ rest := fun hmem => h (List.mem_cons_of_mem _ hmem)
      simp only [rangeInstances, firstWithID]
      split
      · rfl
      · exact ih hr

theorem firstWithID_eq_some {sagaID : String} {l : List InstPtr} {inst : SagaInstance}
    (h : firstWithID sagaID l = some inst) : some inst ∈ l ∧ inst.ID = sagaID := by
  induction l with
  | nil => simp [firstWithID] at h
  | cons x rest ih =>
    cases x with
    | none =>
      simp only [firstWithID] at h
      exact ⟨List.mem_cons_of_mem _ (ih h).1, (ih h).2⟩
    | some y =>
      simp only [firstWithID] at h
      split at h
      · rename_i hy
        cases h
        exact ⟨List.mem_cons_self _ _, hy⟩
      · exact ⟨List.mem_cons_of_mem _ (ih h).1, (ih h).2⟩

theorem firstWithID_eq_none {sagaID : String} {l : List InstPtr}
    (h : firstWithID sagaID l = none) (inst : SagaInstance) (hmem : some inst ∈ l) :
    inst.ID ≠ sagaID := by
  induction l with
  | nil => simp at hmem
  | cons x rest ih =>
    cases x with
    | none =>
      simp only [firstWithID] at h
      simp only [List.mem_cons] at hmem
      rcases hmem with hx | hx
      · cases hx
      · exact ih h hx
    | some y =>
      simp only [firstWithID] at h
      split at h
      · cases h
      · rename_i hy
        simp only [List.mem_cons, Option.some.injEq] at hmem
        rcases hmem with hx | hx
        · subst hx; exact hy
        · exact ih h hx

/-- The outer loop, when no visited list holds a nil pointer: the first match of
the first visited definition that has one. -/
theorem rangeStore_eq_findSome (store : InMemorySagaStore) (sagaID : String)
    (order : List DefPtr) (h : ∀ d ∈ order, none ∉ store.index d) :
    rangeStore store sagaID order =
      lookupResult (order.findSome? (fun d => firstWithID sagaID (store.index d))) := by
  induction order with
  | nil => rfl
  | cons d rest ih =>
    have hd : none ∉ store.index d := h d (List.mem_cons_self _ _)
    have hr : ∀ e ∈ rest, none ∉ store.index e := fun e he => h e (List.mem_cons_of_mem _ he)
    simp only [rangeStore, rangeInstances_eq_firstWithID sagaID _ hd, List.findSome?]
    cases hf : firstWithID sagaID (store.index d) with
    | none => simpa using ih hr
    | some inst => rfl

theorem mem_keys_of_mem_index {store : InMemorySagaStore} {d : DefPtr} {p : InstPtr}
    (h : p ∈ store.index d) : d ∈ store.keys := by
  unfold InMemorySagaStore.index at h
  unfold InMemorySagaStore.keys
  cases hm : store.instances with
  | none => simp [hm] at h
  | some m =>
    simp only [hm] at h ⊢
    cases hl : m.lookup d with
    | none => simp [hl] at h
    | some l =>
      have : (m.lookup d).isSome := by simp [hl]
      exact AList.lookup_isSome.mp this

theorem index_of_not_mem_keys {store : InMemorySagaStore} {d : DefPtr}
    (h : d ∉ store.keys) : store.index d = [] := by
  cases hl : store.index d with
  | nil => rfl
  | cons p rest =>
    exact absurd (mem_keys_of_mem_index (hl ▸ List.mem_cons_self p rest)) h

theorem NoNilInstance.index {store : InMemorySagaStore} (h : NoNilInstance store)
    (d : DefPtr) : none ∉ store.index d := by
  by_cases hd : d ∈ store.keys
  · exact h d hd
  · simp [index_of_not_mem_keys hd]

theorem holdsID_iff (store : InMemorySagaStore) (sagaID : String) :
    HoldsID store sagaID ↔
      ∃ d inst, some inst ∈ store.index d ∧ inst.ID = sagaID := by
  constructor
  · rintro ⟨d, _, p, hp, hid⟩
    cases p with
    | none => simp [hasID] at hid
    | some inst => exact ⟨d, inst, hp, by simpa [hasID] using hid⟩
  · rintro ⟨d, inst, hp, hid⟩
    exact ⟨d, mem_keys_of_mem_index hp, some inst, hp, by simpa [hasID] using hid⟩

/-- Without nil pointers in the store, a lookup in any iteration order finds
the first match of some definition, or nothing when no list has a match. -/
theorem GetSagaByID_cases (store : InMemorySagaStore) (order : List DefPtr) (tx : SqlTx)
    (sagaID : String) (hnil : NoNilInstance store) (hord : IterationOrder store order) :
    (¬ HoldsID store sagaID ∧ GetSagaByID store order tx sagaID = .ret (none, notFound)) ∨
    (∃ d inst, d ∈ order ∧ firstWithID sagaID (store.index d) = some inst ∧
      GetSagaByID store order tx sagaID = .ret (some inst, none)) := by
  unfold GetSagaByID
  rw [rangeStore_eq_findSome store sagaID order (fun d _ => hnil.index d)]
  cases hf : order.findSome? (fun d => firstWithID sagaID (store.index d)) with
  | none =>
    left
    refine ⟨?_, rfl⟩
    intro hholds
    obtain ⟨d, inst, hmem, hid⟩ := (holdsID_iff store sagaID).mp hholds
    have hk : d ∈ order := hord.mem_iff.mpr (mem_keys_of_mem_index hmem)
    exact firstWithID_eq_none (List.findSome?_eq_none_iff.mp hf d hk) inst hmem hid
  | some inst =>
    right
    obtain ⟨d, hd, hfd⟩ := List.exists_of_findSome?_eq_some hf
    exact ⟨d, inst, hd, hfd, rfl⟩

theorem firstWithID_append_of_some {sagaID : String} {l : List InstPtr} {inst : SagaInstance}
    (h : firstWithID sagaID l = some inst) (l' : List InstPtr) :
    firstWithID sagaID (l ++ l') = some inst := by
  induction l with
  | nil => simp [firstWithID] at h
  | cons x rest ih =>
    cases x with
    | none =>
      simp only [firstWithID] at h
      simpa [firstWithID] using ih h
    | some y =>
      simp only [firstWithID] at h
      by_cases hy : y.ID = sagaID
      · simpa [firstWithID, hy] using h
      · simp only [hy, if_false] at h
        simpa [firstWithID, hy] using ih h

theorem firstWithID_eq_none_of_forall {sagaID : String} {l : List InstPtr}
    (h : ∀ inst, some inst ∈ l → inst.ID ≠ sagaID) : firstWithID sagaID l = none := by
  cases hf : firstWithID sagaID l with
  | none => rfl
  | some inst =>
    obtain ⟨hmem, hid⟩ := firstWithID_eq_some hf
    exact absurd hid (h inst hmem)

/-- When only `d` can have a match, the search over the visited keys gives the
match of `d`. -/
theorem findSome_eq_of_unique {β : Type} (f : DefPtr → Option β) (d : DefPtr)
    (order : List DefPtr) (hd : d ∈ order) (h : ∀ e ∈ order, e ≠ d → f e = none) :
    order.findSome? f = f d := by
  induction order with
  | nil => simp at hd
  | cons x rest ih =>
    have hrest : ∀ e ∈ rest, e ≠ d → f e = none := fun e he =>
      h e (List.mem_cons_of_mem _ he)
    by_cases hx : x = d
    · subst hx
      cases hfx : f x with
      | some b => simp [List.findSome?, hfx]
      | none =>
        simp only [List.findSome?, hfx]
        rw [List.findSome?_eq_none_iff]
        intro e he
        by_cases hex : e = x
        · rw [hex, hfx]
        · exact hrest e he hex
    · have hfx : f x = none := h x (List.mem_cons_self _ _) hx
      have hd' : d ∈ rest := by
        rcases List.mem_cons.mp hd with h' | h'
        · exact absurd h'.symm hx
        · exact h'
      simp only [List.findSome?, hfx]
      exact ih hd' hrest

/-! ## Effect of `SaveNewSaga` on the store -/

theorem SaveNewSaga_eq (store : InMemorySagaStore) (m : GoMap) (tx : SqlTx)
    (sagaDef : DefPtr) (newInstance : InstPtr) (hm : store.instances = some m) :
    SaveNewSaga store tx sagaDef newInstance =
      .ret (⟨some (m.insert sagaDef (store.index sagaDef ++ [newInstance]))⟩, none) := by
  unfold SaveNewSaga
  simp only [hm]

theorem index_insert_self (m : GoMap) (d : DefPtr) (l : List InstPtr) :
    (InMemorySagaStore.mk (some (m.insert d l))).index d = l := by
  simp [InMemorySagaStore.index, AList.lookup_insert]

theorem index_insert_ne (m : GoMap) (d e : DefPtr) (l : List InstPtr) (h : e ≠ d) :
    (InMemorySagaStore.mk (some (m.insert d l))).index e =
      (InMemorySagaStore.mk (some m)).index e := by
  simp [InMemorySagaStore.index, AList.lookup_insert_ne h]

theorem keys_insert (m : GoMap) (d : DefPtr) (l : List InstPtr) :
    (InMemorySagaStore.mk (some (m.insert d l))).keys =
      d :: (InMemorySagaStore.mk (some m)).keys.erase d := by
  simp [InMemorySagaStore.keys, AList.keys_insert]

/-- Appending `p` to the list of `d` adds one to the count of `p`'s ID and
leaves every other count alone. -/
theorem countID_insert (m : GoMap) (d : DefPtr) (p : InstPtr) (sagaID : String) :
    countID ⟨some (m.insert d ((InMemorySagaStore.mk (some m)).index d ++ [p]))⟩ sagaID =
      countID ⟨some m⟩ sagaID + (if hasID sagaID p then 1 else 0) := by
  set store : InMemorySagaStore := ⟨some m⟩ with hstore
  set g : DefPtr → Nat := fun e => (store.index e).countP (hasID sagaID) with hg
  have hrest : ∀ e ∈ store.keys.erase d,
      ((InMemorySagaStore.mk (some (m.insert d (store.index d ++ [p])))).index e).countP
        (hasID sagaID) = g e := by
    intro e he
    have hne : e ≠ d := by
      intro h
      subst h
      have hnd : store.keys.Nodup := by
        simpa [hstore, InMemorySagaStore.keys] using AList.keys_nodup m
      exact (List.Nodup.not_mem_erase hnd) he
    rw [index_insert_ne m d e _ hne]
  have hsplit : (store.keys.map g).sum = g d + ((store.keys.erase d).map g).sum := by
    by_cases hd : d ∈ store.keys
    · have hp := (List.perm_cons_erase hd).map g
      simpa using hp.sum_eq
    · have h0 : g d = 0 := by simp [hg, index_of_not_mem_keys hd]
      rw [List.erase_of_not_mem hd, h0, Nat.zero_add]
  unfold countID
  rw [keys_insert, List.map_cons, List.sum_cons, index_insert_self,
    List.map_congr_left hrest, List.countP_append]
  change g d + _ + _ = (store.keys.map g).sum + _
  rw [hsplit]
  have hp : List.countP (hasID sagaID) [p] = if hasID sagaID p then 1 else 0 := by
    cases h : hasID sagaID p <;> simp [List.countP_cons, h]
  rw [hp]
  omega

theorem index_insert (m : GoMap) (d e : DefPtr) (l : List InstPtr) :
    (InMemorySagaStore.mk (some (m.insert d l))).index e =
      if e = d then l else (InMemorySagaStore.mk (some m)).index e := by
  by_cases h : e = d
  · subst h
    simp [index_insert_self]
  · simp [h, index_insert_ne m d e l h]

/-- Saving a non-nil instance keeps the store free of nil pointers. -/
theorem noNil_insert (m : GoMap) (d : DefPtr) (inst : SagaInstance)
    (h : NoNilInstance ⟨some m⟩) :
    NoNilInstance ⟨some (m.insert d ((InMemorySagaStore.mk (some m)).index d ++ [some inst]))⟩ := by
  intro e _
  rw [index_insert]
  split
  · simp [h.index d]
  · exact h.index e

/-! ## Runs of calls -/

/-- A run on a store with a non-nil map returns, its store has a non-nil map,
and the count of every ID has grown by the number of saved instances with it. -/
theorem runCalls_countID (calls : List Call) :
    ∀ (store : InMemorySagaStore) (m : GoMap), store.instances = some m →
      ∃ s m', runCalls store calls = .ret s ∧ s.instances = some m' ∧
        ∀ sagaID, countID s sagaID = countID store sagaID + (savedIDs calls).count sagaID := by
  induction calls with
  | nil =>
    intro store m hm
    exact ⟨store, m, rfl, hm, fun _ => by simp [savedIDs]⟩
  | cons c rest ih =>
    intro store m hm
    obtain ⟨mi⟩ := store
    simp only at hm
    subst hm
    cases c with
    | update tx inst =>
      obtain ⟨s, m', hrun, hs, hcount⟩ := ih ⟨some m⟩ m rfl
      exact ⟨s, m', by simpa [runCalls, Call.run, UpdateSaga] using hrun, hs,
        fun sagaID => by simpa [savedIDs] using hcount sagaID⟩
    | saveNew tx d p =>
      obtain ⟨s, m', hrun, hs, hcount⟩ :=
        ih ⟨some (m.insert d ((InMemorySagaStore.mk (some m)).index d ++ [p]))⟩ _ rfl
      refine ⟨s, m', ?_, hs, ?_⟩
      · simp only [runCalls, Call.run, SaveNewSaga_eq _ m tx d p rfl]
        exact hrun
      · intro sagaID
        rw [hcount sagaID, countID_insert]
        cases p with
        | none => simp [savedIDs, hasID]
        | some inst =>
          by_cases hid : inst.ID = sagaID
          · simp [savedIDs, hasID, hid, List.count_cons]
            omega
          · simp [savedIDs, hasID, hid, List.count_cons]

/-- A run that saves no nil pointer keeps the store free of nil pointers. -/
theorem runCalls_noNil (calls : List Call) :
    ∀ (store : InMemorySagaStore) (m : GoMap), store.instances = some m →
      NoNilInstance store → (∀ c ∈ calls, c.savesNil = false) →
      ∀ s, runCalls store calls = .ret s → NoNilInstance s := by
  induction calls with
  | nil =>
    intro store m _ hnil _ s hrun
    simp only [runCalls, Exec.ret.injEq] at hrun
    exact hrun ▸ hnil
  | cons c rest ih =>
    intro store m hm hnil hcalls s hrun
    obtain ⟨mi⟩ := store
    simp only at hm
    subst hm
    have hrest : ∀ c' ∈ rest, c'.savesNil = false := fun c' hc' =>
      hcalls c' (List.mem_cons_of_mem _ hc')
    cases c with
    | update tx inst =>
      exact ih ⟨some m⟩ m rfl hnil hrest s (by simpa [runCalls, Call.run, UpdateSaga] using hrun)
    | saveNew tx d p =>
      cases p with
      | none =>
        have := hcalls _ (List.mem_cons_self _ _)
        simp [Call.savesNil] at this
      | some inst =>
        simp only [runCalls, Call.run, SaveNewSaga_eq _ m tx d (some inst) rfl] at hrun
        exact ih _ _ rfl (noNil_insert m d inst hnil) hrest s hrun

theorem countID_eq_zero_iff (store : InMemorySagaStore) (sagaID : String) :
    countID store sagaID = 0 ↔ ¬ HoldsID store sagaID := by
  unfold countID HoldsID
  rw [List.sum_eq_zero_iff]
  simp only [List.mem_map, forall_exists_index, and_imp, forall_apply_eq_imp_iff₂,
    List.countP_eq_zero]
  push_neg
  constructor
  · intro h d hd p hp
    simpa using h d hd p hp
  · intro h d hd p hp
    simpa using h d hd p hp

theorem countID_new (sagaID : String) : countID NewInMemoryStore sagaID = 0 := rfl

/-! ## C1: `SaveNewSaga` and duplicate IDs -/

/-- C1, amended: on a store with a non-nil map `SaveNewSaga` returns the nil
error for every definition and instance, also when an instance with the same
ID is already stored; it never returns `DuplicateInstance` or any other error. -/
theorem SaveNewSaga_returns_nil_error (store : InMemorySagaStore) (m : GoMap) (tx : SqlTx)
    (sagaDef : DefPtr) (newInstance : InstPtr) (hm : store.instances = some m) :
    (∃ store', SaveNewSaga store tx sagaDef newInstance = .ret (store', none)) ∧
    (∀ store' err, SaveNewSaga store tx sagaDef newInstance ≠ .ret (store', some err)) := by
  unfold SaveNewSaga
  simp only [hm]
  refine ⟨⟨_, rfl⟩, ?_⟩
  intro store' err h
  cases h

/-- C1, witness: the amended statement at the store that already holds `a1`
(ID "1") and the new instance `b1` (ID "1"). -/
theorem SaveNewSaga_returns_nil_error_witness :
    storeA.instances = some mapA ∧
    HoldsID storeA b1.ID ∧
    ((∃ store', SaveNewSaga storeA none 7 (some b1) = .ret (store', none)) ∧
     (∀ store' err, SaveNewSaga storeA none 7 (some b1) ≠ .ret (store', some err))) :=
  ⟨rfl, by decide,
    SaveNewSaga_returns_nil_error storeA mapA none 7 (some b1) rfl⟩

/-- C1, counterexample: the store made by one `SaveNewSaga` holds `a1` with ID
"1"; saving `b1`, whose ID is "1" too, returns the nil error and stores it. -/
theorem SaveNewSaga_duplicate_succeeds :
    runCalls NewInMemoryStore [.saveNew none 7 (some a1)] = .ret storeA ∧
    HoldsID storeA b1.ID ∧
    SaveNewSaga storeA none 7 (some b1) = .ret (storeAB, none) ∧
    ¬ (∃ store' err, SaveNewSaga storeA none 7 (some b1) = .ret (store', some err)) := by
  refine ⟨rfl, by decide, rfl, ?_⟩
  rintro ⟨store', err, h⟩
  cases h

/-! ## C2: `GetSagaByID`, found and not found -/

/-- C2, amended: for every store none of whose lists holds a nil pointer, every
iteration order and every ID, `GetSagaByID` returns an error with a nil instance
if and only if no list holds an instance with that ID; otherwise it returns the
nil error and a stored instance whose ID is the one asked for. -/
theorem GetSagaByID_notFound_iff (store : InMemorySagaStore) (order : List DefPtr)
    (tx : SqlTx) (sagaID : String) (hnil : NoNilInstance store)
    (hord : IterationOrder store order) :
    ((∃ err, GetSagaByID store order tx sagaID = .ret (none, some err)) ↔
      ¬ HoldsID store sagaID) ∧
    (HoldsID store sagaID →
      ∃ inst, GetSagaByID store order tx sagaID = .ret (some inst, none) ∧
        inst.ID = sagaID ∧ ∃ d, some inst ∈ store.index d) := by
  rcases GetSagaByID_cases store order tx sagaID hnil hord with ⟨hno, hget⟩ | ⟨d, inst, _, hf, hget⟩
  · refine ⟨⟨fun _ => hno, fun _ => ⟨_, hget⟩⟩, fun h => absurd h hno⟩
  · have hmem := firstWithID_eq_some hf
    have hholds : HoldsID store sagaID :=
      (holdsID_iff store sagaID).mpr ⟨d, inst, hmem.1, hmem.2⟩
    refine ⟨⟨?_, fun h => absurd hholds h⟩, fun _ => ⟨inst, hget, hmem.2, d, hmem.1⟩⟩
    rintro ⟨err, herr⟩
    rw [hget] at herr
    cases herr

/-- C2, witness: the amended statement at the store holding `a1`, for the ID
"1" that it holds. -/
theorem GetSagaByID_notFound_iff_witness :
    NoNilInstance storeA ∧ IterationOrder storeA [7] ∧
    (((∃ err, GetSagaByID storeA [7] none "1" = .ret (none, some err)) ↔
      ¬ HoldsID storeA "1") ∧
    (HoldsID storeA "1" →
      ∃ inst, GetSagaByID storeA [7] none "1" = .ret (some inst, none) ∧
        inst.ID = "1" ∧ ∃ d, some inst ∈ storeA.index d)) :=
  ⟨by decide, List.Perm.refl _,
    GetSagaByID_notFound_iff storeA [7] none "1" (by decide) (List.Perm.refl _)⟩

/-- C2, counterexample: after `SaveNewSaga(tx, 7, nil)` on a new store no list
holds an instance with ID "1", yet `GetSagaByID("1")` returns neither an error
nor an instance: it panics reading `instance.ID` through the nil pointer. -/
theorem GetSagaByID_panics_on_nil :
    runCalls NewInMemoryStore [.saveNew none 7 none] = .ret storeNil ∧
    IterationOrder storeNil [7] ∧
    ¬ HoldsID storeNil "1" ∧
    GetSagaByID storeNil [7] none "1" = .panic ∧
    ¬ (∃ err, GetSagaByID storeNil [7] none "1" = .ret (none, some err)) := by
  have hpanic : GetSagaByID storeNil [7] none "1" = .panic := by decide
  refine ⟨rfl, List.Perm.refl _, by decide, hpanic, ?_⟩
  rintro ⟨err, h⟩
  rw [hpanic] at h
  cases h

/-! ## C3: one instance per ID -/

/-- C3, amended: in every store reached from `NewInMemoryStore()` by a finite
sequence of `SaveNewSaga` and `UpdateSaga` calls in which no two `SaveNewSaga`
calls pass instances with the same ID, there is at most one stored instance
per ID, all definitions' lists taken together. -/
theorem countID_le_one_of_distinct_saves (calls : List Call)
    (hdistinct : (savedIDs calls).Nodup) :
    ∃ store, runCalls NewInMemoryStore calls = .ret store ∧
      ∀ sagaID, countID store sagaID ≤ 1 := by
  obtain ⟨s, _, hrun, _, hcount⟩ := runCalls_countID calls NewInMemoryStore ∅ rfl
  refine ⟨s, hrun, fun sagaID => ?_⟩
  rw [hcount sagaID, countID_new, Nat.zero_add]
  exact List.nodup_iff_count_le_one.mp hdistinct sagaID

/-- C3, witness: two saves with the IDs "1" and "2" and an update. -/
theorem countID_le_one_of_distinct_saves_witness :
    (savedIDs [.saveNew none 7 (some a1), .update none (some a1),
        .saveNew none 8 (some ⟨"2", 300⟩)]).Nodup ∧
    ∃ store, runCalls NewInMemoryStore [.saveNew none 7 (some a1), .update none (some a1),
        .saveNew none 8 (some ⟨"2", 300⟩)] = .ret store ∧
      ∀ sagaID, countID store sagaID ≤ 1 :=
  ⟨by decide, countID_le_one_of_distinct_saves _ (by decide)⟩

/-- C3, counterexample: two `SaveNewSaga` calls on a new store, with the
distinct instances `a1` and `b1` that both have the ID "1", leave two
stored instances with ID "1". -/
theorem two_instances_with_one_ID :
    a1 ≠ b1 ∧ a1.ID = b1.ID ∧
    runCalls NewInMemoryStore [.saveNew none 7 (some a1), .saveNew none 7 (some b1)] =
      .ret storeAB ∧
    countID storeAB "1" = 2 ∧ ¬ countID storeAB "1" ≤ 1 :=
  ⟨by decide, by decide, rfl, by decide, by decide⟩

/-! ## C4: save, then get -/

/-- C4, amended: for every store with a non-nil map and no nil pointer in its
lists that holds no instance with ID `i`, every definition and every instance
`inst` with ID `i`: `SaveNewSaga(def, inst)` returns the nil error, and on the
store it leaves `GetSagaByID(i)` returns exactly `inst` with the nil error, in
every iteration order. -/
theorem GetSagaByID_after_SaveNewSaga (store : InMemorySagaStore) (m : GoMap)
    (tx tx' : SqlTx) (sagaDef : DefPtr) (inst : SagaInstance) (i : String)
    (hm : store.instances = some m) (hnil : NoNilInstance store)
    (hfresh : ¬ HoldsID store i) (hid : inst.ID = i) :
    ∃ store', SaveNewSaga store tx sagaDef (some inst) = .ret (store', none) ∧
      ∀ order, IterationOrder store' order →
        GetSagaByID store' order tx' i = .ret (some inst, none) := by
  obtain ⟨mi⟩ := store
  simp only at hm
  subst hm
  refine ⟨_, SaveNewSaga_eq _ m tx sagaDef (some inst) rfl, fun order hord => ?_⟩
  have hnil' := noNil_insert m sagaDef inst hnil
  rcases GetSagaByID_cases _ order tx' i hnil' hord with ⟨hno, _⟩ | ⟨e, x, _, hf, hget⟩
  · exfalso
    apply hno
    rw [holdsID_iff]
    exact ⟨sagaDef, inst, by simp [index_insert_self], hid⟩
  · obtain ⟨hmem, hx⟩ := firstWithID_eq_some hf
    have hold : ∀ e', some x ∉ (InMemorySagaStore.mk (some m)).index e' := fun e' h' =>
      hfresh ((holdsID_iff _ i).mpr ⟨e', x, h', hx⟩)
    rw [index_insert] at hmem
    split at hmem
    · rcases List.mem_append.mp hmem with h' | h'
      · exact absurd h' (hold sagaDef)
      · simp only [List.mem_singleton, Option.some.injEq] at h'
        rw [hget, h']
    · exact absurd hmem (hold e)

/-- C4, witness: saving `a1`, whose ID is "1", into a new store and looking up
"1". -/
theorem GetSagaByID_after_SaveNewSaga_witness :
    NewInMemoryStore.instances = some ∅ ∧ NoNilInstance NewInMemoryStore ∧
    ¬ HoldsID NewInMemoryStore "1" ∧ a1.ID = "1" ∧
    ∃ store', SaveNewSaga NewInMemoryStore none 7 (some a1) = .ret (store', none) ∧
      ∀ order, IterationOrder store' order →
        GetSagaByID store' order none "1" = .ret (some a1, none) :=
  ⟨rfl, by decide, by decide, by decide,
    GetSagaByID_after_SaveNewSaga NewInMemoryStore ∅ none none 7 a1 "1" rfl
      (by decide) (by decide) (by decide)⟩

/-- C4, counterexample: neither `zeroStore` (nil map) nor `storeNil` (a nil
pointer saved under definition 7) holds an instance with ID "1". On the first
`SaveNewSaga(7, &a1)` panics writing to the nil map; on the second it returns,
and `GetSagaByID("1")` then panics at the nil pointer that precedes `a1`. -/
theorem save_then_get_panics :
    ¬ HoldsID zeroStore "1" ∧ SaveNewSaga zeroStore none 7 (some a1) = .panic ∧
    ¬ HoldsID storeNil "1" ∧
    SaveNewSaga storeNil none 7 (some a1) = .ret (storeNilA, none) ∧
    IterationOrder storeNilA [7] ∧
    GetSagaByID storeNilA [7] none "1" = .panic ∧
    GetSagaByID storeNilA [7] none "1" ≠ .ret (some a1, none) :=
  ⟨by decide, rfl, by decide, rfl, List.Perm.refl _, by decide, by decide⟩

/-! ## C5: lookup of an ID that was never saved -/

/-- C5, amended: for every store reached from `NewInMemoryStore()` by a sequence
of `SaveNewSaga` and `UpdateSaga` calls in which every instance passed to
`SaveNewSaga` is non-nil, and every ID that is not the ID of an instance passed
to `SaveNewSaga` in the sequence, `GetSagaByID` returns an error and no instance,
in every iteration order (so for every ID on a new store). -/
theorem GetSagaByID_never_saved (calls : List Call) (order : List DefPtr) (tx : SqlTx)
    (sagaID : String) (hnonnil : ∀ c ∈ calls, c.savesNil = false)
    (hid : sagaID ∉ savedIDs calls) :
    ∃ store, runCalls NewInMemoryStore calls = .ret store ∧
      (IterationOrder store order →
        GetSagaByID store order tx sagaID = .ret (none, notFound)) := by
  obtain ⟨s, _, hrun, _, hcount⟩ := runCalls_countID calls NewInMemoryStore ∅ rfl
  have hnil : NoNilInstance s :=
    runCalls_noNil calls NewInMemoryStore ∅ rfl (by decide) hnonnil s hrun
  have hzero : countID s sagaID = 0 := by
    rw [hcount sagaID, countID_new, List.count_eq_zero_of_not_mem hid]
  have hno : ¬ HoldsID s sagaID := (countID_eq_zero_iff s sagaID).mp hzero
  refine ⟨s, hrun, fun hord => ?_⟩
  rcases GetSagaByID_cases s order tx sagaID hnil hord with ⟨_, hget⟩ | ⟨d, inst, _, hf, _⟩
  · exact hget
  · exact absurd ((holdsID_iff s sagaID).mpr ⟨d, inst, firstWithID_eq_some hf⟩) hno

/-- C5, witness: after saving `a1` (ID "1") the ID "99" is not found; the second
part is the new store, for the same ID. -/
theorem GetSagaByID_never_saved_witness :
    ((∀ c ∈ [Call.saveNew none 7 (some a1)], c.savesNil = false) ∧
      "99" ∉ savedIDs [Call.saveNew none 7 (some a1)] ∧
      ∃ store, runCalls NewInMemoryStore [Call.saveNew none 7 (some a1)] = .ret store ∧
        (IterationOrder store [7] →
          GetSagaByID store [7] none "99" = .ret (none, notFound))) ∧
    (∃ store, runCalls NewInMemoryStore [] = .ret store ∧
        (IterationOrder store [] →
          GetSagaByID store [] none "99" = .ret (none, notFound))) :=
  ⟨⟨by decide, by decide,
      GetSagaByID_never_saved [Call.saveNew none 7 (some a1)] [7] none "99"
        (by decide) (by decide)⟩,
    GetSagaByID_never_saved [] [] none "99" (by decide) (by decide)⟩

/-- C5, counterexample: the sequence of the single call `SaveNewSaga(7, nil)`
passes no instance with ID "99", and on the store it reaches
`GetSagaByID("99")` panics instead of returning an error. -/
theorem GetSagaByID_orphan_panics :
    "99" ∉ savedIDs [Call.saveNew none 7 none] ∧
    runCalls NewInMemoryStore [Call.saveNew none 7 none] = .ret storeNil ∧
    IterationOrder storeNil [7] ∧
    GetSagaByID storeNil [7] none "99" = .panic ∧
    GetSagaByID storeNil [7] none "99" ≠ .ret (none, notFound) :=
  ⟨by decide, rfl, List.Perm.refl _, by decide, by decide⟩

/-! ## C6: `UpdateSaga` changes nothing -/

/-- Without nil pointers, when the lists that hold the ID all have the same
earliest instance with it, two lookups agree whatever their iteration orders. -/
theorem GetSagaByID_eq_of_same_first (store : InMemorySagaStore) (sagaID : String)
    (order₁ order₂ : List DefPtr) (tx₁ tx₂ : SqlTx) (hnil : NoNilInstance store)
    (hsame : ∀ d₁ d₂ x₁ x₂, firstWithID sagaID (store.index d₁) = some x₁ →
      firstWithID sagaID (store.index d₂) = some x₂ → x₁ = x₂)
    (h₁ : IterationOrder store order₁) (h₂ : IterationOrder store order₂) :
    GetSagaByID store order₁ tx₁ sagaID = GetSagaByID store order₂ tx₂ sagaID := by
  unfold GetSagaByID
  rw [rangeStore_eq_findSome store sagaID order₁ (fun d _ => hnil.index d),
    rangeStore_eq_findSome store sagaID order₂ (fun d _ => hnil.index d)]
  have hmem : ∀ d, d ∈ order₁ ↔ d ∈ order₂ := fun d =>
    (h₁.trans h₂.symm).mem_iff
  cases hf₁ : order₁.findSome? (fun d => firstWithID sagaID (store.index d)) with
  | none =>
    have hall := List.findSome?_eq_none_iff.mp hf₁
    have hf₂ : order₂.findSome? (fun d => firstWithID sagaID (store.index d)) = none :=
      List.findSome?_eq_none_iff.mpr (fun d hd => hall d ((hmem d).mpr hd))
    rw [hf₂]
  | some x₁ =>
    obtain ⟨d₁, hd₁, hx₁⟩ := List.exists_of_findSome?_eq_some hf₁
    cases hf₂ : order₂.findSome? (fun d => firstWithID sagaID (store.index d)) with
    | none =>
      have hnone := List.findSome?_eq_none_iff.mp hf₂ d₁ ((hmem d₁).mp hd₁)
      rw [hx₁] at hnone
      cases hnone
    | some x₂ =>
      obtain ⟨d₂, _, hx₂⟩ := List.exists_of_findSome?_eq_some hf₂
      rw [hsame d₁ d₂ x₁ x₂ hx₁ hx₂]

/-- C6, amended: for every store and every instance pointer (stored in it or
not), `UpdateSaga` returns the nil error and leaves the map as it was, so the
number of stored instances with any one ID is the same before and after. The
lookup of an ID returns the same result before and after the update, whatever
the two iteration orders, when the store has no nil pointer in its lists and
the lists that hold an instance with that ID all have the same earliest such
pointer (so when only one definition's list holds the ID). -/
theorem UpdateSaga_keeps_lookup (store : InMemorySagaStore) (tx : SqlTx) (inst : InstPtr) :
    ∃ store', UpdateSaga store tx inst = .ret (store', none) ∧
      store'.instances = store.instances ∧
      (∀ sagaID, countID store' sagaID = countID store sagaID) ∧
      (∀ sagaID order₁ order₂ tx₁ tx₂, NoNilInstance store →
        (∀ d₁ d₂ x₁ x₂, firstWithID sagaID (store.index d₁) = some x₁ →
          firstWithID sagaID (store.index d₂) = some x₂ → x₁ = x₂) →
        IterationOrder store order₁ → IterationOrder store' order₂ →
        GetSagaByID store order₁ tx₁ sagaID = GetSagaByID store' order₂ tx₂ sagaID) :=
  ⟨store, rfl, rfl, fun _ => rfl,
    fun sagaID order₁ order₂ tx₁ tx₂ hnil hsame h₁ h₂ =>
      GetSagaByID_eq_of_same_first store sagaID order₁ order₂ tx₁ tx₂ hnil hsame h₁ h₂⟩

/-- C6, witness: `storeShared` holds `a1` under the definitions 7 and 8; after
`UpdateSaga(&a1)` the lookup of "1" in the order 8, 7 gives what it gave before
in the order 7, 8. -/
theorem UpdateSaga_keeps_lookup_witness :
    NoNilInstance storeShared ∧
    (∀ d₁ d₂ x₁ x₂, firstWithID "1" (storeShared.index d₁) = some x₁ →
      firstWithID "1" (storeShared.index d₂) = some x₂ → x₁ = x₂) ∧
    IterationOrder storeShared [7, 8] ∧
    ∃ store', UpdateSaga storeShared none (some a1) = .ret (store', none) ∧
      store'.instances = storeShared.instances ∧
      countID store' "1" = countID storeShared "1" ∧
      IterationOrder store' [8, 7] ∧
      GetSagaByID storeShared [7, 8] none "1" = GetSagaByID store' [8, 7] none "1" := by
  have hfirst : ∀ d x, firstWithID "1" (storeShared.index d) = some x → x = a1 := by
    intro d x hf
    have hk : d ∈ storeShared.keys := mem_keys_of_mem_index (firstWithID_eq_some hf).1
    have hd : d = 8 ∨ d = 7 := by
      simpa [storeShared, mapA, InMemorySagaStore.keys] using hk
    rcases hd with h | h
    · subst h
      have : firstWithID "1" [some a1] = some x := hf
      simpa [firstWithID, a1] using this.symm
    · subst h
      have : firstWithID "1" [some a1] = some x := hf
      simpa [firstWithID, a1] using this.symm
  have hsame : ∀ d₁ d₂ x₁ x₂, firstWithID "1" (storeShared.index d₁) = some x₁ →
      firstWithID "1" (storeShared.index d₂) = some x₂ → x₁ = x₂ :=
    fun d₁ d₂ x₁ x₂ e₁ e₂ => (hfirst d₁ x₁ e₁).trans (hfirst d₂ x₂ e₂).symm
  obtain ⟨store', hret, hinst, hcount, hlookup⟩ :=
    UpdateSaga_keeps_lookup storeShared none (some a1)
  have hstore : store' = storeShared := by
    simp only [UpdateSaga, Exec.ret.injEq, Prod.mk.injEq, and_true] at hret
    exact hret.symm
  have hord : IterationOrder store' [8, 7] := by
    rw [hstore]
    decide
  exact ⟨by decide, hsame, by decide, store', hret, hinst, hcount "1", hord,
    hlookup "1" [7, 8] [8, 7] none none (by decide) hsame (by decide) hord⟩

/-- C6, counterexample. In `storeTwoDefs` the instance `a1` is stored under the
key 7 and `b1`, with the same ID "1", under 8. `UpdateSaga(&a1)` leaves
the store as it is, and the lookup of "1" returns `a1` when the map is iterated
7 first, as it may be before the update, and `b1` when it is iterated 8 first,
as it may be after. In `storeANil`, with a nil pointer under 8, the lookup
returns `a1` in the one order and panics in the other. -/
theorem UpdateSaga_lookup_may_differ :
    (runCalls NewInMemoryStore
        [Call.saveNew none 7 (some a1), Call.saveNew none 8 (some b1)] = .ret storeTwoDefs ∧
      some a1 ∈ storeTwoDefs.index 7 ∧
      UpdateSaga storeTwoDefs none (some a1) = .ret (storeTwoDefs, none) ∧
      IterationOrder storeTwoDefs [7, 8] ∧ IterationOrder storeTwoDefs [8, 7] ∧
      GetSagaByID storeTwoDefs [7, 8] none a1.ID = .ret (some a1, none) ∧
      GetSagaByID storeTwoDefs [8, 7] none a1.ID = .ret (some b1, none) ∧
      a1 ≠ b1) ∧
    (runCalls NewInMemoryStore
        [Call.saveNew none 7 (some a1), Call.saveNew none 8 none] = .ret storeANil ∧
      some a1 ∈ storeANil.index 7 ∧
      UpdateSaga storeANil none (some a1) = .ret (storeANil, none) ∧
      IterationOrder storeANil [7, 8] ∧ IterationOrder storeANil [8, 7] ∧
      GetSagaByID storeANil [7, 8] none a1.ID = .ret (some a1, none) ∧
      GetSagaByID storeANil [8, 7] none a1.ID = .panic) :=
  ⟨⟨rfl, by decide, rfl, by decide, by decide, by decide, by decide, by decide⟩,
    ⟨rfl, by decide, rfl, by decide, by decide, by decide, by decide⟩⟩

/-! ## C8: what `SaveNewSaga` writes -/

/-- C8: on a store with the non-nil map `m`, `SaveNewSaga(def, inst)` returns
the nil error and leaves a store with a non-nil map in which `def` is bound to
its previous list (the empty list if `def` was absent) followed by `inst`, and
every other definition is bound as before (or absent as before). -/
theorem SaveNewSaga_appends (m : GoMap) (tx : SqlTx) (sagaDef : DefPtr)
    (newInstance : InstPtr) :
    ∃ m', SaveNewSaga ⟨some m⟩ tx sagaDef newInstance = .ret (⟨some m'⟩, none) ∧
      m'.lookup sagaDef = some ((m.lookup sagaDef).getD [] ++ [newInstance]) ∧
      (∀ other, other ≠ sagaDef → m'.lookup other = m.lookup other) := by
  refine ⟨_, SaveNewSaga_eq _ m tx sagaDef newInstance rfl, ?_, ?_⟩
  · simp [InMemorySagaStore.index, AList.lookup_insert]
  · intro other hne
    exact AList.lookup_insert_ne hne

/-- C8, witness: saving `b1` under definition 7 of the store that holds `a1`
there; definition 8 stays absent. -/
theorem SaveNewSaga_appends_witness :
    ∃ m', SaveNewSaga ⟨some mapA⟩ none 7 (some b1) = .ret (⟨some m'⟩, none) ∧
      m'.lookup 7 = some ([some a1] ++ [some b1]) ∧
      m'.lookup 8 = mapA.lookup 8 := by
  obtain ⟨m', hsave, hdef, hother⟩ := SaveNewSaga_appends mapA none 7 (some b1)
  exact ⟨m', hsave, hdef, hother 8 (by decide)⟩

/-! ## C9: the first saved instance wins within a definition -/

/-- C9, amended: for every store without nil pointers in its lists whose
only instances with ID `i` are under `def`, if `a` is the earliest instance
with ID `i` in the list of `def` and an instance `b` with ID `i` is then saved with
`SaveNewSaga(def, b)`, `GetSagaByID(i)` returns `a` in every iteration order;
it does not return `b` when `b` is another instance than `a`. -/
theorem GetSagaByID_first_saved_wins (store : InMemorySagaStore) (tx tx' : SqlTx)
    (sagaDef : DefPtr) (a b : SagaInstance) (i : String)
    (hnil : NoNilInstance store)
    (honly : ∀ other, other ≠ sagaDef → ∀ x, some x ∈ store.index other → x.ID ≠ i)
    (ha : firstWithID i (store.index sagaDef) = some a) (hb : b.ID = i) :
    ∃ store', SaveNewSaga store tx sagaDef (some b) = .ret (store', none) ∧
      ∀ order, IterationOrder store' order →
        GetSagaByID store' order tx' i = .ret (some a, none) ∧
        (a ≠ b → GetSagaByID store' order tx' i ≠ .ret (some b, none)) := by
  obtain ⟨mi⟩ := store
  cases mi with
  | none => simp [InMemorySagaStore.index, firstWithID] at ha
  | some m =>
    refine ⟨_, SaveNewSaga_eq _ m tx sagaDef (some b) rfl, fun order hord => ?_⟩
    have hnil' := noNil_insert m sagaDef b hnil
    have hmem : sagaDef ∈ order := by
      apply hord.mem_iff.mpr
      rw [keys_insert]
      exact List.mem_cons_self _ _
    have hget : GetSagaByID ⟨some (m.insert sagaDef
        ((InMemorySagaStore.mk (some m)).index sagaDef ++ [some b]))⟩ order tx' i =
        .ret (some a, none) := by
      unfold GetSagaByID
      rw [rangeStore_eq_findSome _ i order (fun d _ => hnil'.index d),
        findSome_eq_of_unique _ sagaDef order hmem, index_insert_self,
        firstWithID_append_of_some ha]
      · rfl
      · intro e _ hne
        rw [index_insert_ne m sagaDef e _ hne]
        exact firstWithID_eq_none_of_forall (honly e hne)
    refine ⟨hget, fun hab h => ?_⟩
    rw [hget] at h
    simp only [Exec.ret.injEq, Prod.mk.injEq, Option.some.injEq, and_true] at h
    exact hab h

/-- C9, witness: `a1` is stored under definition 7 of `storeA`, `b1` has the
same ID "1" and is saved under 7 too; the lookup of "1" still gives `a1`. -/
theorem GetSagaByID_first_saved_wins_witness :
    NoNilInstance storeA ∧
    (∀ other, other ≠ 7 → ∀ x, some x ∈ storeA.index other → x.ID ≠ "1") ∧
    firstWithID "1" (storeA.index 7) = some a1 ∧ b1.ID = "1" ∧
    ∃ store', SaveNewSaga storeA none 7 (some b1) = .ret (store', none) ∧
      ∀ order, IterationOrder store' order →
        GetSagaByID store' order none "1" = .ret (some a1, none) ∧
        (a1 ≠ b1 → GetSagaByID store' order none "1" ≠ .ret (some b1, none)) := by
  have honly : ∀ other, other ≠ 7 → ∀ x, some x ∈ storeA.index other → x.ID ≠ "1" := by
    intro other hne x hx
    have hk : other ∈ storeA.keys := mem_keys_of_mem_index hx
    have h7 : other = 7 := by simpa [storeA, mapA, InMemorySagaStore.keys] using hk
    exact absurd h7 hne
  exact ⟨by decide, honly, by decide, by decide,
    GetSagaByID_first_saved_wins storeA none none 7 a1 b1 "1" (by decide) honly
      (by decide) (by decide)⟩

/-- C9, counterexample: in `storeNilA` the only instance with ID "1" is `a1`,
under definition 7, behind a nil pointer saved earlier. After
`SaveNewSaga(7, &b1)` the lookup of "1" does not return `a1`: it panics. -/
theorem GetSagaByID_first_saved_panics :
    runCalls NewInMemoryStore [Call.saveNew none 7 none, Call.saveNew none 7 (some a1)] =
      .ret storeNilA ∧
    storeNilA.keys = [7] ∧ storeNilA.index 7 = [none, some a1] ∧ b1.ID = a1.ID ∧
    SaveNewSaga storeNilA none 7 (some b1) = .ret (storeNilAB, none) ∧
    IterationOrder storeNilAB [7] ∧
    GetSagaByID storeNilAB [7] none "1" = .panic ∧
    GetSagaByID storeNilAB [7] none "1" ≠ .ret (some a1, none) :=
  ⟨rfl, rfl, rfl, by decide, rfl, List.Perm.refl _, by decide, by decide⟩

/-! ## C10: the lookup and the iteration order of the map -/

/-- C10, amended: for every store without nil pointers in its lists and every
ID: if at most one definition's list contains an instance with that ID, the
result of `GetSagaByID` is the same in every iteration order; if two
different definitions each hold an instance with that ID and the earliest
such instances of their two lists are different, there are two iteration
orders in which `GetSagaByID` returns different instances. -/
theorem GetSagaByID_iteration_order (store : InMemorySagaStore) (tx : SqlTx)
    (sagaID : String) (hnil : NoNilInstance store) :
    ((∀ d₁ d₂ x₁ x₂, some x₁ ∈ store.index d₁ → x₁.ID = sagaID →
        some x₂ ∈ store.index d₂ → x₂.ID = sagaID → d₁ = d₂) →
      ∀ order₁ order₂, IterationOrder store order₁ → IterationOrder store order₂ →
        GetSagaByID store order₁ tx sagaID = GetSagaByID store order₂ tx sagaID) ∧
    (∀ d₁ d₂ x₁ x₂, d₁ ≠ d₂ → firstWithID sagaID (store.index d₁) = some x₁ →
        firstWithID sagaID (store.index d₂) = some x₂ → x₁ ≠ x₂ →
      ∃ order₁ order₂, IterationOrder store order₁ ∧ IterationOrder store order₂ ∧
        GetSagaByID store order₁ tx sagaID = .ret (some x₁, none) ∧
        GetSagaByID store order₂ tx sagaID = .ret (some x₂, none) ∧
        GetSagaByID store order₁ tx sagaID ≠ GetSagaByID store order₂ tx sagaID) := by
  have hget : ∀ order, GetSagaByID store order tx sagaID =
      lookupResult (order.findSome? (fun d => firstWithID sagaID (store.index d))) :=
    fun order => rangeStore_eq_findSome store sagaID order (fun d _ => hnil.index d)
  constructor
  · intro huniq order₁ order₂ h₁ h₂
    rw [hget, hget]
    by_cases hex : ∃ d x, firstWithID sagaID (store.index d) = some x
    · obtain ⟨d, x, hx⟩ := hex
      obtain ⟨hmem, hid⟩ := firstWithID_eq_some hx
      have hk : d ∈ store.keys := mem_keys_of_mem_index hmem
      have hothers : ∀ order : List DefPtr, ∀ e ∈ order, e ≠ d →
          firstWithID sagaID (store.index e) = none := by
        intro order e _ hne
        apply firstWithID_eq_none_of_forall
        intro y hy hyid
        exact hne (huniq e d y x hy hyid hmem hid)
      rw [findSome_eq_of_unique _ d order₁ (h₁.mem_iff.mpr hk) (hothers order₁),
        findSome_eq_of_unique _ d order₂ (h₂.mem_iff.mpr hk) (hothers order₂)]
    · have hnone : ∀ order : List DefPtr,
          order.findSome? (fun d => firstWithID sagaID (store.index d)) = none := by
        intro order
        rw [List.findSome?_eq_none_iff]
        intro d _
        cases hf : firstWithID sagaID (store.index d) with
        | none => rfl
        | some x => exact absurd ⟨d, x, hf⟩ hex
      rw [hnone order₁, hnone order₂]
  · intro d₁ d₂ x₁ x₂ _ h₁ h₂ hne
    have hk₁ : d₁ ∈ store.keys := mem_keys_of_mem_index (firstWithID_eq_some h₁).1
    have hk₂ : d₂ ∈ store.keys := mem_keys_of_mem_index (firstWithID_eq_some h₂).1
    have hg₁ : GetSagaByID store (d₁ :: store.keys.erase d₁) tx sagaID =
        .ret (some x₁, none) := by
      rw [hget]
      simp [List.findSome?, h₁, lookupResult]
    have hg₂ : GetSagaByID store (d₂ :: store.keys.erase d₂) tx sagaID =
        .ret (some x₂, none) := by
      rw [hget]
      simp [List.findSome?, h₂, lookupResult]
    refine ⟨d₁ :: store.keys.erase d₁, d₂ :: store.keys.erase d₂,
      (List.perm_cons_erase hk₁).symm, (List.perm_cons_erase hk₂).symm, hg₁, hg₂, ?_⟩
    rw [hg₁, hg₂]
    intro h
    simp only [Exec.ret.injEq, Prod.mk.injEq, Option.some.injEq, and_true] at h
    exact hne h

/-- C10, witness: in `storeAC` only definition 7 has an instance with ID "1",
and all orders agree; in `storeTwoDefs` the definitions 7 and 8 hold the
different instances `a1` and `b1` with ID "1", and two orders disagree. -/
theorem GetSagaByID_iteration_order_witness :
    (NoNilInstance storeAC ∧
      (∀ d₁ d₂ x₁ x₂, some x₁ ∈ storeAC.index d₁ → x₁.ID = "1" →
        some x₂ ∈ storeAC.index d₂ → x₂.ID = "1" → d₁ = d₂) ∧
      ∀ order₁ order₂, IterationOrder storeAC order₁ → IterationOrder storeAC order₂ →
        GetSagaByID storeAC order₁ none "1" = GetSagaByID storeAC order₂ none "1") ∧
    (NoNilInstance storeTwoDefs ∧ (7 : DefPtr) ≠ 8 ∧
      firstWithID "1" (storeTwoDefs.index 7) = some a1 ∧
      firstWithID "1" (storeTwoDefs.index 8) = some b1 ∧ a1 ≠ b1 ∧
      ∃ order₁ order₂, IterationOrder storeTwoDefs order₁ ∧
        IterationOrder storeTwoDefs order₂ ∧
        GetSagaByID storeTwoDefs order₁ none "1" = .ret (some a1, none) ∧
        GetSagaByID storeTwoDefs order₂ none "1" = .ret (some b1, none) ∧
        GetSagaByID storeTwoDefs order₁ none "1" ≠
          GetSagaByID storeTwoDefs order₂ none "1") := by
  have hseven : ∀ d x, some x ∈ storeAC.index d → x.ID = "1" → d = 7 := by
    intro d x hx hid
    have hk : d ∈ storeAC.keys := mem_keys_of_mem_index hx
    have hd : d = 8 ∨ d = 7 := by
      simpa [storeAC, mapA, InMemorySagaStore.keys] using hk
    rcases hd with h | h
    · subst h
      have hc : x = c2 := by
        have : some x ∈ [some c2] := hx
        simpa using this
      subst hc
      exact absurd hid (by decide)
    · exact h
  have huniq : ∀ d₁ d₂ x₁ x₂, some x₁ ∈ storeAC.index d₁ → x₁.ID = "1" →
      some x₂ ∈ storeAC.index d₂ → x₂.ID = "1" → d₁ = d₂ :=
    fun d₁ d₂ x₁ x₂ h₁ i₁ h₂ i₂ => (hseven d₁ x₁ h₁ i₁).trans (hseven d₂ x₂ h₂ i₂).symm
  exact ⟨⟨by decide, huniq,
      (GetSagaByID_iteration_order storeAC none "1" (by decide)).1 huniq⟩,
    ⟨by decide, by decide, by decide, by decide, by decide,
      (GetSagaByID_iteration_order storeTwoDefs none "1" (by decide)).2 7 8 a1 b1
        (by decide) (by decide) (by decide) (by decide)⟩⟩

/-- C10, counterexample. First part: in `storeNilOther` only definition 8
has an instance with ID "1", yet the order 7, 8 panics at the nil pointer under 7 and
the order 8, 7 returns `a1`. Second part: in `storeShared` the definitions 7
and 8 both hold an instance with ID "1", the same pointer `a1`, and every
iteration order returns `a1`. -/
theorem GetSagaByID_order_dependence_fails :
    (runCalls NewInMemoryStore [Call.saveNew none 7 none, Call.saveNew none 8 (some a1)] =
        .ret storeNilOther ∧
      storeNilOther.keys = [8, 7] ∧ storeNilOther.index 7 = [none] ∧
      storeNilOther.index 8 = [some a1] ∧
      IterationOrder storeNilOther [7, 8] ∧ IterationOrder storeNilOther [8, 7] ∧
      GetSagaByID storeNilOther [7, 8] none "1" = .panic ∧
      GetSagaByID storeNilOther [8, 7] none "1" = .ret (some a1, none)) ∧
    (runCalls NewInMemoryStore
        [Call.saveNew none 7 (some a1), Call.saveNew none 8 (some a1)] = .ret storeShared ∧
      (7 : DefPtr) ≠ 8 ∧ some a1 ∈ storeShared.index 7 ∧ some a1 ∈ storeShared.index 8 ∧
      a1.ID = "1" ∧
      ∀ order, IterationOrder storeShared order →
        GetSagaByID storeShared order none "1" = .ret (some a1, none)) := by
  refine ⟨⟨rfl, rfl, rfl, rfl, List.Perm.swap 8 7 [], List.Perm.refl _, by decide, by decide⟩,
    ⟨rfl, by decide, by decide, by decide, by decide, fun order hord => ?_⟩⟩
  rcases GetSagaByID_cases storeShared order none "1" (by decide) hord with
    ⟨hno, _⟩ | ⟨d, x, hd, hf, hget⟩
  · exact absurd (by decide) hno
  · have hk : d ∈ storeShared.keys := hord.mem_iff.mp hd
    have hd' : d = 8 ∨ d = 7 := by
      simpa [storeShared, mapA, InMemorySagaStore.keys] using hk
    have hx : x = a1 := by
      rcases hd' with h | h
      · subst h
        have : firstWithID "1" [some a1] = some x := hf
        simpa [firstWithID, a1] using this.symm
      · subst h
        have : firstWithID "1" [some a1] = some x := hf
        simpa [firstWithID, a1] using this.symm
    rw [hget, hx]

/-! ## Further facts on runs -/

/-- Appending one pointer to the list of `d` adds one to the number of stored
pointers. -/
theorem storedCount_insert (m : GoMap) (d : DefPtr) (p : InstPtr) :
    storedCount ⟨some (m.insert d ((InMemorySagaStore.mk (some m)).index d ++ [p]))⟩ =
      storedCount ⟨some m⟩ + 1 := by
  set store : InMemorySagaStore := ⟨some m⟩ with hstore
  set g : DefPtr → Nat := fun e => (store.index e).length with hg
  have hnd : store.keys.Nodup := by
    simpa [hstore, InMemorySagaStore.keys] using AList.keys_nodup m
  have hrest : ∀ e ∈ store.keys.erase d,
      ((InMemorySagaStore.mk (some (m.insert d (store.index d ++ [p])))).index e).length =
        g e := by
    intro e he
    have hne : e ≠ d := fun h => (List.Nodup.not_mem_erase hnd) (h ▸ he)
    rw [index_insert_ne m d e _ hne]
  have hsplit : (store.keys.map g).sum = g d + ((store.keys.erase d).map g).sum := by
    by_cases hd : d ∈ store.keys
    · have hp := (List.perm_cons_erase hd).map g
      simpa using hp.sum_eq
    · have h0 : g d = 0 := by simp [hg, index_of_not_mem_keys hd]
      rw [List.erase_of_not_mem hd, h0, Nat.zero_add]
  unfold storedCount
  rw [keys_insert, List.map_cons, List.sum_cons, index_insert_self,
    List.map_congr_left hrest, List.length_append]
  change g d + _ + _ = (store.keys.map g).sum + _
  rw [hsplit]
  simp only [List.length_singleton]
  omega

/-- Over a run on a store with a non-nil map the number of stored pointers
grows by the number of `SaveNewSaga` calls. -/
theorem runCalls_storedCount (calls : List Call) :
    ∀ (store : InMemorySagaStore) (m : GoMap), store.instances = some m →
      ∀ s, runCalls store calls = .ret s →
        storedCount s = storedCount store + numSaves calls := by
  induction calls with
  | nil =>
    intro store m _ s hrun
    simp only [runCalls, Exec.ret.injEq] at hrun
    simp [← hrun, numSaves]
  | cons c rest ih =>
    intro store m hm s hrun
    obtain ⟨mi⟩ := store
    simp only at hm
    subst hm
    cases c with
    | update tx inst =>
      have := ih ⟨some m⟩ m rfl s (by simpa [runCalls, Call.run, UpdateSaga] using hrun)
      simpa [numSaves] using this
    | saveNew tx d p =>
      simp only [runCalls, Call.run, SaveNewSaga_eq _ m tx d p rfl] at hrun
      rw [ih _ _ rfl s hrun, storedCount_insert, numSaves]
      omega

/-! ## C11: instances are never removed -/

/-- C11, amended: on every store with a non-nil map every finite sequence of
`SaveNewSaga` and `UpdateSaga` calls returns; each `SaveNewSaga` call, whatever
pointer it passes, adds exactly one to the total number of stored instance
pointers and each `UpdateSaga` call leaves it unchanged, so the total grows by
the number of `SaveNewSaga` calls. If moreover the store has no nil pointer in
its lists, `GetSagaByID` succeeds for an ID, and every instance passed to
`SaveNewSaga` in the sequence is non-nil, then `GetSagaByID` for that ID still
succeeds afterwards, in every iteration order. -/
theorem stored_instances_never_removed (store : InMemorySagaStore) (m : GoMap)
    (calls : List Call) (hm : store.instances = some m) :
    (∀ tx sagaDef newInstance, ∃ store₁,
      SaveNewSaga store tx sagaDef newInstance = .ret (store₁, none) ∧
        storedCount store₁ = storedCount store + 1) ∧
    (∀ tx inst, ∃ store₁, UpdateSaga store tx inst = .ret (store₁, none) ∧
        storedCount store₁ = storedCount store) ∧
    ∃ store', runCalls store calls = .ret store' ∧
      storedCount store' = storedCount store + numSaves calls ∧
      (∀ order tx sagaID inst, NoNilInstance store →
        GetSagaByID store order tx sagaID = .ret (some inst, none) →
        (∀ c ∈ calls, c.savesNil = false) →
        ∀ order' tx', IterationOrder store' order' →
          ∃ inst', GetSagaByID store' order' tx' sagaID = .ret (some inst', none) ∧
            inst'.ID = sagaID) := by
  obtain ⟨s, _, hrun, _, hcount⟩ := runCalls_countID calls store m hm
  refine ⟨fun tx sagaDef newInstance => ?_, fun tx inst => ⟨store, rfl, rfl⟩,
    s, hrun, runCalls_storedCount calls store m hm s hrun, ?_⟩
  · refine ⟨_, SaveNewSaga_eq store m tx sagaDef newInstance hm, ?_⟩
    obtain ⟨mi⟩ := store
    simp only at hm
    subst hm
    exact storedCount_insert m sagaDef newInstance
  · intro order tx sagaID inst hnil hget hnonnil order' tx' hord
    have hfind :
        order.findSome? (fun d => firstWithID sagaID (store.index d)) = some inst := by
      have h := hget
      unfold GetSagaByID at h
      rw [rangeStore_eq_findSome store sagaID order (fun d _ => hnil.index d)] at h
      cases hf : order.findSome? (fun d => firstWithID sagaID (store.index d)) with
      | none =>
        rw [hf] at h
        simp [lookupResult, notFound] at h
      | some x =>
        rw [hf] at h
        simp only [lookupResult, Exec.ret.injEq, Prod.mk.injEq, Option.some.injEq,
          and_true] at h
        rw [h]
    obtain ⟨d, _, hd⟩ := List.exists_of_findSome?_eq_some hfind
    obtain ⟨hmem, hid⟩ := firstWithID_eq_some hd
    have hholds : HoldsID store sagaID :=
      (holdsID_iff store sagaID).mpr ⟨d, inst, hmem, hid⟩
    have hnil' : NoNilInstance s := runCalls_noNil calls store m hm hnil hnonnil s hrun
    have hholds' : HoldsID s sagaID := by
      by_contra hno
      have hzero := (countID_eq_zero_iff s sagaID).mpr hno
      rw [hcount sagaID] at hzero
      exact ((countID_eq_zero_iff store sagaID).mp (by omega)) hholds
    rcases GetSagaByID_cases s order' tx' sagaID hnil' hord with
      ⟨hno, _⟩ | ⟨e, x, _, hf, hget'⟩
    · exact absurd hholds' hno
    · exact ⟨x, hget', (firstWithID_eq_some hf).2⟩

/-- C11, witness. On `storeA` the lookup of "1" succeeds, and still does after
an update and a save of `c2` under definition 8, and the store has grown by
one. On a new store, where no lookup succeeds, a save of the nil pointer makes
the total one. -/
theorem stored_instances_never_removed_witness :
    (storeA.instances = some mapA ∧ NoNilInstance storeA ∧
      GetSagaByID storeA [7] none "1" = .ret (some a1, none) ∧
      (∀ c ∈ [Call.update none (some a1), Call.saveNew none 8 (some c2)],
        c.savesNil = false) ∧
      ∃ store', runCalls storeA
          [Call.update none (some a1), Call.saveNew none 8 (some c2)] = .ret store' ∧
        storedCount store' = storedCount storeA + 1 ∧
        ∀ order' tx', IterationOrder store' order' →
          ∃ inst', GetSagaByID store' order' tx' "1" = .ret (some inst', none) ∧
            inst'.ID = "1") ∧
    (NewInMemoryStore.instances = some ∅ ∧
      ∃ store₁, SaveNewSaga NewInMemoryStore none 7 none = .ret (store₁, none) ∧
        storedCount store₁ = 0 + 1) := by
  obtain ⟨_, _, store', hrun, hcount, hlookup⟩ :=
    stored_instances_never_removed storeA mapA
      [Call.update none (some a1), Call.saveNew none 8 (some c2)] rfl
  obtain ⟨hsave, _, _⟩ := stored_instances_never_removed NewInMemoryStore ∅ [] rfl
  exact ⟨⟨rfl, by decide, by decide, by decide, store', hrun, hcount,
      hlookup [7] none "1" a1 (by decide) (by decide) (by decide)⟩,
    ⟨rfl, hsave none 7 none⟩⟩

/-- C11, counterexample: on `storeA` the lookup of "1" succeeds. After the
further call `SaveNewSaga(8, nil)` the map has the keys 8 and 7, and in the
iteration order 8, 7 the lookup of "1" panics at the nil pointer under 8. On
that store, `storeANil`, the lookup of "1" succeeds in the order 7, 8, and
after no further call at all it panics in the order 8, 7. -/
theorem GetSagaByID_fails_after_nil_save :
    IterationOrder storeA [7] ∧
    GetSagaByID storeA [7] none "1" = .ret (some a1, none) ∧
    runCalls storeA [Call.saveNew none 8 none] = .ret storeANil ∧
    storeANil.keys = [8, 7] ∧ storeANil.index 8 = [none] ∧
    IterationOrder storeANil [8, 7] ∧
    GetSagaByID storeANil [8, 7] none "1" = .panic ∧
    IterationOrder storeANil [7, 8] ∧
    GetSagaByID storeANil [7, 8] none "1" = .ret (some a1, none) ∧
    runCalls storeANil [] = .ret storeANil :=
  ⟨by decide, by decide, rfl, rfl, rfl, by decide, by decide, by decide, by decide, rfl⟩

/-! ## C12: `UpdateSaga` never fails -/

/-- C12: for every store (its map nil or not) and every instance pointer,
`UpdateSaga` returns the nil error and leaves the store with the same keys and
the same lists; so an instance whose ID no stored instance has is reported as
updated and is not in the store afterwards either. -/
theorem UpdateSaga_returns_nil_error (store : InMemorySagaStore) (tx : SqlTx)
    (inst : InstPtr) :
    ∃ store', UpdateSaga store tx inst = .ret (store', none) ∧
      store'.keys = store.keys ∧ (∀ d, store'.index d = store.index d) ∧
      (∀ sagaID, ¬ HoldsID store sagaID → ¬ HoldsID store' sagaID) ∧
      storedCount store' = storedCount store :=
  ⟨store, rfl, rfl, fun _ => rfl, fun _ h => h, rfl⟩

/-- C12, witness: updating `a1`, which was never saved, on a new store. -/
theorem UpdateSaga_returns_nil_error_witness :
    ¬ HoldsID NewInMemoryStore a1.ID ∧
    ∃ store', UpdateSaga NewInMemoryStore none (some a1) = .ret (store', none) ∧
      ¬ HoldsID store' a1.ID ∧ storedCount store' = 0 := by
  obtain ⟨store', hret, _, _, hholds, hcount⟩ :=
    UpdateSaga_returns_nil_error NewInMemoryStore none (some a1)
  exact ⟨by decide, store', hret, hholds a1.ID (by decide), hcount.trans (by decide)⟩

/-! ## C13: no panic on reachable stores -/

/-- C13: for every store reached from `NewInMemoryStore()` by `SaveNewSaga` and
`UpdateSaga` calls in which every instance passed to `SaveNewSaga` is non-nil
(the run itself returns): the map is non-nil and no list holds a nil pointer,
so `SaveNewSaga`, for every definition and instance pointer, and
`GetSagaByID`, for every ID and every order of visiting keys, return a result
and do not panic. -/
theorem reachable_store_no_panic (calls : List Call)
    (hnonnil : ∀ c ∈ calls, c.savesNil = false) :
    ∃ store, runCalls NewInMemoryStore calls = .ret store ∧
      store.instances ≠ none ∧ (∀ d, none ∉ store.index d) ∧
      (∀ tx sagaDef newInstance, ∃ store',
        SaveNewSaga store tx sagaDef newInstance = .ret (store', none)) ∧
      (∀ order tx sagaID, ∃ result,
        GetSagaByID store order tx sagaID = .ret result) := by
  obtain ⟨s, m', hrun, hm', _⟩ := runCalls_countID calls NewInMemoryStore ∅ rfl
  have hnil : NoNilInstance s :=
    runCalls_noNil calls NewInMemoryStore ∅ rfl (by decide) hnonnil s hrun
  refine ⟨s, hrun, by simp [hm'], hnil.index, ?_, ?_⟩
  · intro tx sagaDef newInstance
    exact ⟨_, SaveNewSaga_eq s m' tx sagaDef newInstance hm'⟩
  · intro order tx sagaID
    unfold GetSagaByID
    rw [rangeStore_eq_findSome s sagaID order (fun d _ => hnil.index d)]
    cases order.findSome? (fun d => firstWithID sagaID (s.index d)) with
    | none => exact ⟨_, rfl⟩
    | some x => exact ⟨_, rfl⟩

/-- C13, witness: the run that saves `a1` under 7, updates it and saves `b1`
under 8. -/
theorem reachable_store_no_panic_witness :
    (∀ c ∈ [Call.saveNew none 7 (some a1), Call.update none (some a1),
        Call.saveNew none 8 (some b1)], c.savesNil = false) ∧
    ∃ store, runCalls NewInMemoryStore [Call.saveNew none 7 (some a1),
        Call.update none (some a1), Call.saveNew none 8 (some b1)] = .ret store ∧
      store.instances ≠ none ∧ (∀ d, none ∉ store.index d) ∧
      (∀ tx sagaDef newInstance, ∃ store',
        SaveNewSaga store tx sagaDef newInstance = .ret (store', none)) ∧
      (∀ order tx sagaID, ∃ result,
        GetSagaByID store order tx sagaID = .ret result) :=
  ⟨by decide, reachable_store_no_panic _ (by decide)⟩

end Saga
